import Mathlib

/-!
# Verification of the jvalue stock-analysis core (src/main.py)

Shallow embedding of the four pure financial-math functions and the
recommendation logic of `src/main.py`, together with theorems settling the
frozen claims about them.

Modelling conventions:
* Python floats are modelled as rationals (`ℚ`).
* A Python `None` return is `Option.none`.
* A raised exception (`ZeroDivisionError` on a zero float denominator,
  `IndexError` on indexing an empty sequence) is `Except.error ()`.
* A pandas `NaN` (e.g. from `diff()` or an incomplete rolling window, or the
  float quotient `0/0`) is a distinguished "no value" marker; the float
  quotients `x/0` for `x ≠ 0` are signed infinities.  These extended values
  are the type `XF` below.
-/

/-- Decidable equality on `Except`, to let concrete embedded results be
evaluated by `decide`. -/
instance exceptDecidableEq {ε α : Type} [DecidableEq ε] [DecidableEq α] :
    DecidableEq (Except ε α) := fun a b =>
  match a, b with
  | Except.error e, Except.error f =>
    if h : e = f then isTrue (by rw [h])
    else isFalse (by intro hc; injection hc with h2; exact h h2)
  | Except.error _, Except.ok _ => isFalse (by intro hc; exact Except.noConfusion hc)
  | Except.ok _, Except.error _ => isFalse (by intro hc; exact Except.noConfusion hc)
  | Except.ok x, Except.ok y =>
    if h : x = y then isTrue (by rw [h])
    else isFalse (by intro hc; injection hc with h2; exact h h2)

/-- Reduction of `Except.bind` on a success value. -/
lemma except_ok_bind {ε α β : Type} (a : α) (f : α → Except ε β) :
    (Except.ok a : Except ε α).bind f = f a := rfl

/-- Reduction of `Except.bind` on an error value. -/
lemma except_error_bind {ε α β : Type} (e : ε) (f : α → Except ε β) :
    (Except.error e : Except ε α).bind f = Except.error e := rfl

/-- Python float division: raises `ZeroDivisionError` when the denominator is
zero, otherwise ordinary division. -/
def pydiv (a b : ℚ) : Except Unit ℚ :=
  if b = 0 then Except.error () else Except.ok (a / b)

lemma pydiv_ok (a b : ℚ) (h : b ≠ 0) : pydiv a b = Except.ok (a / b) := by
  simp [pydiv, h]

/-! ## Valuation engine (src/main.py lines 23–36) -/

/-- `gordon_model` (src/main.py lines 23–26): returns `None` when
`discount_rate <= growth_rate`, else `dividend / (discount_rate - growth_rate)`. -/
def gordon_model (dividend growth_rate discount_rate : ℚ) : Option ℚ :=
  if discount_rate ≤ growth_rate then none
  else some (dividend / (discount_rate - growth_rate))

/-- The `for i, cf in enumerate(cash_flows)` loop of `dcf_model`
(src/main.py lines 32–33): accumulates `cf / (1 + discount_rate)^(i+1)` into
`present_value`, propagating a division fault. -/
def dcf_discount_loop (discount_rate : ℚ) : List ℚ → Nat → ℚ → Except Unit ℚ
  | [], _, acc => Except.ok acc
  | cf :: rest, i, acc =>
    (pydiv cf ((1 + discount_rate) ^ (i + 1))).bind fun q =>
      dcf_discount_loop discount_rate rest (i + 1) (acc + q)

/-- `dcf_model` (src/main.py lines 28–36): returns `None` for an empty
cash-flow list; otherwise discounts each cash flow, adds the discounted
terminal value `cash_flows[-1] * (1 + terminal_growth_rate) /
(discount_rate - terminal_growth_rate) / (1 + discount_rate)^n`.
There is no guard on the rates, so the terminal-value division faults when
`discount_rate = terminal_growth_rate`. -/
def dcf_model : List ℚ → ℚ → ℚ → Except Unit (Option ℚ)
  | [], _, _ => Except.ok none
  | cf0 :: rest, discount_rate, terminal_growth_rate =>
    (dcf_discount_loop discount_rate (cf0 :: rest) 0 0).bind fun pv =>
      (pydiv ((cf0 :: rest).getLastD 0 * (1 + terminal_growth_rate))
          (discount_rate - terminal_growth_rate)).bind fun tv =>
        (pydiv tv ((1 + discount_rate) ^ (cf0 :: rest).length)).bind fun dtv =>
          Except.ok (some (pv + dtv))

/-! ### Helper lemmas about `dcf_model` -/

/-- When `1 + discount_rate ≠ 0` the discount loop never faults and computes
the discounted sum of the remaining cash flows, shifted by the start index. -/
lemma dcf_discount_loop_eq (discount_rate : ℚ) (h : 1 + discount_rate ≠ 0) :
    ∀ (l : List ℚ) (i : Nat) (acc : ℚ),
      dcf_discount_loop discount_rate l i acc =
        Except.ok (acc + ∑ j in Finset.range l.length,
          l.getD j 0 / (1 + discount_rate) ^ (i + j + 1)) := by
  intro l
  induction l with
  | nil => intro i acc; simp [dcf_discount_loop]
  | cons cf rest ih =>
    intro i acc
    have hpow : (1 + discount_rate) ^ (i + 1) ≠ 0 := pow_ne_zero _ h
    rw [dcf_discount_loop, pydiv_ok _ _ hpow, except_ok_bind,
      ih (i + 1) (acc + cf / (1 + discount_rate) ^ (i + 1))]
    have hsum : ∑ j in Finset.range (cf :: rest).length,
        (cf :: rest).getD j 0 / (1 + discount_rate) ^ (i + j + 1) =
        cf / (1 + discount_rate) ^ (i + 1) +
          ∑ j in Finset.range rest.length,
            rest.getD j 0 / (1 + discount_rate) ^ (i + 1 + j + 1) := by
      rw [List.length_cons, Finset.sum_range_succ']
      have h1 : ∀ j ∈ Finset.range rest.length,
          (cf :: rest).getD (j + 1) 0 / (1 + discount_rate) ^ (i + (j + 1) + 1) =
          rest.getD j 0 / (1 + discount_rate) ^ (i + 1 + j + 1) := by
        intro j _
        rw [List.getD_cons_succ]
        congr 2
        omega
      rw [Finset.sum_congr rfl h1, add_comm]
      norm_num
    rw [hsum, add_assoc]

/-- For a nonempty cash-flow list, `dcf_model` never returns the
"unavailable" value `Except.ok none`: every branch is an error or a numeric
result. -/
lemma dcf_model_ne_ok_none (cf0 : ℚ) (rest : List ℚ)
    (discount_rate terminal_growth_rate : ℚ) :
    dcf_model (cf0 :: rest) discount_rate terminal_growth_rate ≠ Except.ok none := by
  have hbind : ∀ {α : Type} (ma : Except Unit α) (g : α → Except Unit (Option ℚ)),
      (∀ x, g x ≠ Except.ok none) → ma.bind g ≠ Except.ok none := by
    intro α ma g hg
    cases ma with
    | error e => simp [Except.bind]
    | ok x => simpa [Except.bind] using hg x
  rw [dcf_model]
  apply hbind; intro pv
  apply hbind; intro tv
  apply hbind; intro dtv
  simp

/-- Closed-form evaluation of `dcf_model` when no division faults: the
discounted sum of the cash flows plus the discounted terminal value. -/
lemma dcf_model_eval (cash_flows : List ℚ)
    (discount_rate terminal_growth_rate : ℚ)
    (hne : cash_flows ≠ [])
    (hdiff : discount_rate - terminal_growth_rate ≠ 0)
    (hdr : 1 + discount_rate ≠ 0) :
    dcf_model cash_flows discount_rate terminal_growth_rate =
      Except.ok (some
        ((∑ j in Finset.range cash_flows.length,
            cash_flows.getD j 0 / (1 + discount_rate) ^ (j + 1)) +
          (cash_flows.getD (cash_flows.length - 1) 0 * (1 + terminal_growth_rate) /
              (discount_rate - terminal_growth_rate)) /
            (1 + discount_rate) ^ cash_flows.length)) := by
  cases cash_flows with
  | nil => exact absurd rfl hne
  | cons cf0 rest =>
    have hpow : (1 + discount_rate) ^ (cf0 :: rest).length ≠ 0 := pow_ne_zero _ hdr
    have hlast : (cf0 :: rest).getLastD 0 =
        (cf0 :: rest).getD ((cf0 :: rest).length - 1) 0 := by
      rw [List.getLastD_eq_getLast?, List.getLast?_eq_getElem?,
        List.getD_eq_getElem?_getD]
    rw [dcf_model, dcf_discount_loop_eq discount_rate hdr (cf0 :: rest) 0 0,
      except_ok_bind, pydiv_ok _ _ hdiff, except_ok_bind, pydiv_ok _ _ hpow,
      except_ok_bind, hlast]
    simp only [zero_add]

/-! ## Claims C1 and C3 about `dcf_model`, C2 about `gordon_model` -/

/-- **C2** (confirmed): for `discount_rate > growth_rate`, `gordon_model`
returns exactly `dividend / (discount_rate - growth_rate)`; for
`discount_rate ≤ growth_rate` it returns the "unavailable" value `none`,
for all dividend and growth-rate values. -/
theorem gordon_model_spec (dividend growth_rate discount_rate : ℚ) :
    gordon_model dividend growth_rate discount_rate =
      if discount_rate ≤ growth_rate then none
      else some (dividend / (discount_rate - growth_rate)) := rfl

/-- **C1** (counterexample): with `cash_flows = [100]`,
`discount_rate = 3/100` and `terminal_growth_rate = 1/10` we have
`discount_rate ≤ terminal_growth_rate`, yet `dcf_model` does not return the
"unavailable" value `none` — it returns the ordinary numeric value
`-10000/7`. -/
theorem dcf_model_rate_guard_counterexample :
    dcf_model [100] (3 / 100) (1 / 10) = Except.ok (some (-10000 / 7)) ∧
      dcf_model [100] (3 / 100) (1 / 10) ≠ Except.ok none := by
  have hk : dcf_model [100] (3 / 100) (1 / 10) = Except.ok (some (-10000 / 7)) := by
    rw [dcf_model_eval [100] (3 / 100) (1 / 10) (by simp) (by norm_num) (by norm_num)]
    norm_num [Finset.sum_range_succ]
  refine ⟨hk, ?_⟩
  rw [hk]
  intro hc
  injection hc with h2
  exact Option.noConfusion h2

/-- **C1** (amended): `dcf_model` returns the explicit "unavailable" value
(`Except.ok none`) exactly when the cash-flow sequence is empty; the rate
condition `discount_rate ≤ terminal_growth_rate` is not checked (at equality
the terminal-value division raises `ZeroDivisionError`, and for a strictly
smaller discount rate a numeric value is returned). -/
theorem dcf_model_unavailable_iff (cash_flows : List ℚ)
    (discount_rate terminal_growth_rate : ℚ) :
    dcf_model cash_flows discount_rate terminal_growth_rate = Except.ok none ↔
      cash_flows = [] := by
  constructor
  · intro h
    cases cash_flows with
    | nil => rfl
    | cons cf0 rest =>
      exact absurd h (dcf_model_ne_ok_none cf0 rest discount_rate terminal_growth_rate)
  · intro h
    subst h
    rfl

/-- **C3** (counterexample): the claim quantifies over every non-empty
cash-flow sequence with `discount_rate > terminal_growth_rate`, but at
`discount_rate = -1` (e.g. with `terminal_growth_rate = -2`) each per-period
discount divides by `(1 + discount_rate)^(i+1) = 0` and the call raises
`ZeroDivisionError` instead of returning the stated sum. -/
theorem dcf_model_formula_counterexample :
    dcf_model [100] (-1) (-2) = Except.error () := by
  rw [dcf_model, dcf_discount_loop]
  norm_num [pydiv, except_error_bind]

/-- **C3** (amended): for every non-empty cash-flow sequence of length `n`
with `discount_rate > terminal_growth_rate` and `1 + discount_rate ≠ 0`,
`dcf_model` returns `Σ_{i=1..n} cash_flows[i-1]/(1+discount_rate)^i` plus
`cash_flows[n-1]·(1+terminal_growth_rate)/(discount_rate−terminal_growth_rate)`
divided by `(1+discount_rate)^n`. -/
theorem dcf_model_formula (cash_flows : List ℚ)
    (discount_rate terminal_growth_rate : ℚ)
    (hne : cash_flows ≠ [])
    (hgt : terminal_growth_rate < discount_rate)
    (hdr : 1 + discount_rate ≠ 0) :
    dcf_model cash_flows discount_rate terminal_growth_rate =
      Except.ok (some
        ((∑ j in Finset.range cash_flows.length,
            cash_flows.getD j 0 / (1 + discount_rate) ^ (j + 1)) +
          (cash_flows.getD (cash_flows.length - 1) 0 * (1 + terminal_growth_rate) /
              (discount_rate - terminal_growth_rate)) /
            (1 + discount_rate) ^ cash_flows.length)) := by
  exact dcf_model_eval cash_flows discount_rate terminal_growth_rate hne
    (sub_ne_zero.mpr (ne_of_gt hgt)) hdr

/-- **C3** (witness): the amended theorem applies at the spec's concrete
instance `cash_flows = [100]`, `discount_rate = 1/10`,
`terminal_growth_rate = 3/100`, and the returned value is exactly
`100/1.1 + (100·1.03/0.07)/1.1 = 10000/7`. -/
theorem dcf_model_formula_witness :
    dcf_model [100] (1 / 10) (3 / 100) = Except.ok (some (10000 / 7)) := by
  have h := dcf_model_formula [100] (1 / 10) (3 / 100) (by simp) (by norm_num)
    (by norm_num)
  rw [h]
  norm_num [Finset.sum_range_succ]

/-! ## Technical indicator: RSI (src/main.py lines 14–20)

The pandas pipeline is embedded index-wise.  `diff()` yields `NaN` at index 0;
`delta.where(delta > 0, 0)` replaces both non-positive deltas and the leading
`NaN` by `0` (a `NaN` comparison is `False`); `rolling(window=period).mean()`
is `NaN` until `period` observations are available; the float divisions
`gain/loss` and `100/(1+rs)` follow IEEE semantics: `g/0 = +∞` for `g > 0`,
`-∞` for `g < 0`, `NaN` for `g = 0`; `100 - 100/(1+∞) = 100`. -/

/-- Extended float value: `NaN`, the two infinities, or a finite value. -/
inductive XF where
  | nan : XF
  | pinf : XF
  | ninf : XF
  | val : ℚ → XF
deriving DecidableEq

/-- `data['Close'].diff()` at index `i`: `NaN` (`none`) at index 0, otherwise
the difference with the previous closing price. -/
def delta_at (prices : List ℚ) (i : Nat) : Option ℚ :=
  if i = 0 then none
  else some (prices.getD i 0 - prices.getD (i - 1) 0)

/-- `delta.where(delta > 0, 0)` at index `i`: the positive delta, else `0`
(the leading `NaN` also becomes `0`, since `NaN > 0` is `False`). -/
def gain_at (prices : List ℚ) (i : Nat) : ℚ :=
  match delta_at prices i with
  | none => 0
  | some d => if 0 < d then d else 0

/-- `-delta.where(delta < 0, 0)` at index `i`: the absolute value of a
negative delta, else `0`. -/
def loss_at (prices : List ℚ) (i : Nat) : ℚ :=
  match delta_at prices i with
  | none => 0
  | some d => if d < 0 then -d else 0

/-- `.rolling(window=period).mean()` of the gain column at index `i`:
defined once `period` observations are available (requires `period ≥ 1`,
pandas rejects a zero window). -/
def avgGain_at (prices : List ℚ) (period i : Nat) : Option ℚ :=
  if period ≤ i + 1 then
    some ((∑ j in Finset.Ico (i + 1 - period) (i + 1), gain_at prices j) / period)
  else none

/-- `.rolling(window=period).mean()` of the loss column at index `i`. -/
def avgLoss_at (prices : List ℚ) (period i : Nat) : Option ℚ :=
  if period ≤ i + 1 then
    some ((∑ j in Finset.Ico (i + 1 - period) (i + 1), loss_at prices j) / period)
  else none

/-- `rs = gain / loss` at index `i`, with IEEE float division semantics. -/
def rs_at (prices : List ℚ) (period i : Nat) : XF :=
  match avgGain_at prices period i, avgLoss_at prices period i with
  | some g, some l =>
    if l = 0 then
      if 0 < g then XF.pinf
      else if g < 0 then XF.ninf
      else XF.nan
    else XF.val (g / l)
  | _, _ => XF.nan

/-- `rsi = 100 - (100 / (1 + rs))` at index `i`: `NaN` propagates;
`1 + ∞ = ∞` and `100/∞ = 0` give `100`; likewise for `-∞`;
`100/(1 + (-1)) = 100/+0 = +∞` gives `-∞`. -/
def rsi_at (prices : List ℚ) (period i : Nat) : XF :=
  match rs_at prices period i with
  | XF.nan => XF.nan
  | XF.pinf => XF.val 100
  | XF.ninf => XF.val 100
  | XF.val q => if 1 + q = 0 then XF.ninf else XF.val (100 - 100 / (1 + q))

/-- `calculate_rsi_manual` (src/main.py lines 14–20): the RSI series, aligned
one-to-one with the input price series. -/
def calculate_rsi_manual (prices : List ℚ) (period : Nat) : List XF :=
  (List.range prices.length).map (rsi_at prices period)

/-! ### Helper lemmas about the RSI pipeline -/

lemma gain_at_nonneg (prices : List ℚ) (i : Nat) : 0 ≤ gain_at prices i := by
  unfold gain_at
  cases delta_at prices i with
  | none => exact le_refl 0
  | some d =>
    by_cases h : 0 < d
    · simp [h, le_of_lt h]
    · simp [h]

lemma loss_at_nonneg (prices : List ℚ) (i : Nat) : 0 ≤ loss_at prices i := by
  unfold loss_at
  cases delta_at prices i with
  | none => exact le_refl 0
  | some d =>
    by_cases h : d < 0
    · simp [h, le_of_lt (neg_pos.mpr h)]
    · simp [h]

/-- Indexing the RSI output series is `rsi_at`. -/
lemma calculate_rsi_manual_getD (prices : List ℚ) (period i : Nat)
    (h : i < prices.length) (d : XF) :
    (calculate_rsi_manual prices period).getD i d = rsi_at prices period i := by
  unfold calculate_rsi_manual
  rw [List.getD_eq_getElem?_getD, List.getElem?_map, List.getElem?_range h]
  rfl

/-- Past the warm-up window the RSI entry is determined by the window sums of
gains and losses: with a zero loss sum it saturates at `100` when some gain is
present and is `NaN` when the window is flat; otherwise it is the finite
textbook value. -/
lemma rsi_at_eq (prices : List ℚ) (period i : Nat) (hp : 1 ≤ period)
    (hpi : period ≤ i + 1) (Sg Sl : ℚ)
    (hSg : Sg = ∑ j in Finset.Ico (i + 1 - period) (i + 1), gain_at prices j)
    (hSl : Sl = ∑ j in Finset.Ico (i + 1 - period) (i + 1), loss_at prices j) :
    rsi_at prices period i =
      if Sl = 0 then (if 0 < Sg then XF.val 100 else XF.nan)
      else XF.val (100 - 100 / (1 + Sg / Sl)) := by
  have hperpos : (0 : ℚ) < period := by
    have : 0 < period := hp
    exact_mod_cast this
  have hper : (period : ℚ) ≠ 0 := ne_of_gt hperpos
  have hSgnn : 0 ≤ Sg := by
    rw [hSg]; exact Finset.sum_nonneg fun j _ => gain_at_nonneg prices j
  have hSlnn : 0 ≤ Sl := by
    rw [hSl]; exact Finset.sum_nonneg fun j _ => loss_at_nonneg prices j
  have hg' : avgGain_at prices period i = some (Sg / (period : ℚ)) := by
    unfold avgGain_at
    rw [if_pos hpi, hSg]
  have hl' : avgLoss_at prices period i = some (Sl / (period : ℚ)) := by
    unfold avgLoss_at
    rw [if_pos hpi, hSl]
  have hzero : Sl / (period : ℚ) = 0 ↔ Sl = 0 := by
    rw [div_eq_zero_iff]
    exact ⟨fun h => h.resolve_right hper, Or.inl⟩
  have hpos : 0 < Sg / (period : ℚ) ↔ 0 < Sg := by
    rw [lt_div_iff₀ hperpos, zero_mul]
  have hrs : rs_at prices period i =
      if Sl = 0 then (if 0 < Sg then XF.pinf else XF.nan)
      else XF.val (Sg / Sl) := by
    unfold rs_at
    simp only [hg', hl']
    by_cases hSl0 : Sl = 0
    · simp only [if_pos (hzero.mpr hSl0), if_pos hSl0]
      by_cases hSgpos : 0 < Sg
      · simp only [if_pos (hpos.mpr hSgpos), if_pos hSgpos]
      · simp only [if_neg (fun h => hSgpos (hpos.mp h)), if_neg hSgpos,
          if_neg (not_lt.mpr (div_nonneg hSgnn hperpos.le))]
    · simp only [if_neg (fun h => hSl0 (hzero.mp h)), if_neg hSl0,
        div_div_div_cancel_right₀ hper Sg Sl]
  unfold rsi_at
  rw [hrs]
  by_cases hSl0 : Sl = 0
  · by_cases hSgpos : 0 < Sg
    · simp only [if_pos hSl0, if_pos hSgpos]
    · simp only [if_pos hSl0, if_neg hSgpos]
  · have hSlpos : 0 < Sl := lt_of_le_of_ne hSlnn (Ne.symm hSl0)
    have hq : 0 ≤ Sg / Sl := div_nonneg hSgnn hSlpos.le
    have h1q : 1 + Sg / Sl ≠ 0 := by
      have h0 : (0 : ℚ) < 1 + Sg / Sl := by linarith
      exact ne_of_gt h0
    simp only [if_neg hSl0, if_neg h1q]

/-- Inside the warm-up window (fewer than `period` observations) the rolling
means are undefined and the RSI entry is the `NaN` marker. -/
lemma rsi_at_warmup (prices : List ℚ) (period i : Nat) (h : i + 1 < period) :
    rsi_at prices period i = XF.nan := by
  have h' : ¬ period ≤ i + 1 := by omega
  unfold rsi_at rs_at avgGain_at avgLoss_at
  rw [if_neg h', if_neg h']

/-! ## Claims C4 and C5 about `calculate_rsi_manual` -/

/-- **C4** (counterexample): for the constant price series `[5, 5, 5]` with
`period = 2`, the entry at index `2` — past the first `period − 1 = 1`
entries — is still the `NaN` marker (the window's gains and losses are all
zero, so `rs = 0/0 = NaN`), refuting that every entry past the warm-up is a
defined RSI value. -/
theorem calculate_rsi_manual_alignment_counterexample :
    (calculate_rsi_manual [5, 5, 5] 2).getD 2 XF.nan = XF.nan := by
  rw [calculate_rsi_manual_getD [5, 5, 5] 2 2 (by norm_num) XF.nan,
    rsi_at_eq [5, 5, 5] 2 2 (by norm_num) (by norm_num) 0 0 ?hg ?hl]
  · norm_num
  case hg =>
    norm_num [Finset.sum_Ico_eq_sum_range, Finset.sum_range_succ,
      gain_at, loss_at, delta_at]
  case hl =>
    norm_num [Finset.sum_Ico_eq_sum_range, Finset.sum_range_succ,
      gain_at, loss_at, delta_at]

/-- **C4** (amended): for every price series and `period ≥ 1`, the RSI output
is aligned one-to-one with the input; the first `period − 1` entries are the
"no value" marker; an entry past the warm-up is a defined RSI value if and
only if its trailing `period`-window contains a nonzero gain or loss — a
window of all-zero deltas (e.g. a constant stretch) yields the marker as
well. -/
theorem calculate_rsi_manual_alignment (prices : List ℚ) (period : Nat)
    (hp : 1 ≤ period) :
    (calculate_rsi_manual prices period).length = prices.length ∧
    (∀ i, i < prices.length → i + 1 < period →
      (calculate_rsi_manual prices period).getD i XF.nan = XF.nan) ∧
    (∀ i, i < prices.length → period ≤ i + 1 →
      ((∃ q, (calculate_rsi_manual prices period).getD i XF.nan = XF.val q) ↔
        ∃ j ∈ Finset.Ico (i + 1 - period) (i + 1),
          gain_at prices j ≠ 0 ∨ loss_at prices j ≠ 0)) := by
  refine ⟨by simp [calculate_rsi_manual], ?_, ?_⟩
  · intro i hi hwarm
    rw [calculate_rsi_manual_getD prices period i hi XF.nan,
      rsi_at_warmup prices period i hwarm]
  · intro i hi hpi
    set W := Finset.Ico (i + 1 - period) (i + 1) with hW
    set Sg := ∑ j in W, gain_at prices j with hSg
    set Sl := ∑ j in W, loss_at prices j with hSl
    have hSgnn : 0 ≤ Sg := Finset.sum_nonneg fun j _ => gain_at_nonneg prices j
    have hSg0 : Sg = 0 ↔ ∀ j ∈ W, gain_at prices j = 0 :=
      Finset.sum_eq_zero_iff_of_nonneg fun j _ => gain_at_nonneg prices j
    have hSl0 : Sl = 0 ↔ ∀ j ∈ W, loss_at prices j = 0 :=
      Finset.sum_eq_zero_iff_of_nonneg fun j _ => loss_at_nonneg prices j
    have hkey : (∃ j ∈ W, gain_at prices j ≠ 0 ∨ loss_at prices j ≠ 0) ↔
        ¬(Sg = 0 ∧ Sl = 0) := by
      rw [hSg0, hSl0]
      constructor
      · rintro ⟨j, hj, hor⟩ ⟨hg, hl⟩
        cases hor with
        | inl h => exact h (hg j hj)
        | inr h => exact h (hl j hj)
      · intro hno
        by_contra hnone
        push_neg at hnone
        exact hno ⟨fun j hj => (hnone j hj).1, fun j hj => (hnone j hj).2⟩
    rw [calculate_rsi_manual_getD prices period i hi XF.nan,
      rsi_at_eq prices period i hp hpi Sg Sl hSg hSl]
    by_cases hl0 : Sl = 0
    · by_cases hg0 : 0 < Sg
      · rw [if_pos hl0, if_pos hg0]
        constructor
        · intro _
          exact hkey.mpr fun h => (ne_of_gt hg0) h.1
        · intro _
          exact ⟨100, rfl⟩
      · have hSgz : Sg = 0 := le_antisymm (not_lt.mp hg0) hSgnn
        rw [if_pos hl0, if_neg hg0]
        constructor
        · rintro ⟨q, hq⟩
          exact absurd hq (by simp)
        · intro hex
          exact absurd ⟨hSgz, hl0⟩ (hkey.mp hex)
    · rw [if_neg hl0]
      constructor
      · intro _
        exact hkey.mpr fun h => hl0 h.2
      · intro _
        exact ⟨_, rfl⟩

/-- **C4** (witness): the amended theorem at `prices = [1, 2, 3]`,
`period = 2`. -/
theorem calculate_rsi_manual_alignment_witness :
    1 ≤ 2 ∧
    ((calculate_rsi_manual [1, 2, 3] 2).length = ([1, 2, 3] : List ℚ).length ∧
    (∀ i, i < ([1, 2, 3] : List ℚ).length → i + 1 < 2 →
      (calculate_rsi_manual [1, 2, 3] 2).getD i XF.nan = XF.nan) ∧
    (∀ i, i < ([1, 2, 3] : List ℚ).length → 2 ≤ i + 1 →
      ((∃ q, (calculate_rsi_manual [1, 2, 3] 2).getD i XF.nan = XF.val q) ↔
        ∃ j ∈ Finset.Ico (i + 1 - 2) (i + 1),
          gain_at [1, 2, 3] j ≠ 0 ∨ loss_at [1, 2, 3] j ≠ 0))) :=
  ⟨by norm_num, calculate_rsi_manual_alignment [1, 2, 3] 2 (by norm_num)⟩

/-- **C5** (counterexample): for the constant price series `[7, 7, 7]` with
`period = 2`, the window past the warm-up has `avg_gain = avg_loss = 0`, and
the RSI entry is the `NaN` marker — not the claimed boundary value `100`. -/
theorem rsi_avg_loss_zero_counterexample :
    (calculate_rsi_manual [7, 7, 7] 2).getD 2 XF.nan ≠ XF.val 100 := by
  rw [calculate_rsi_manual_getD [7, 7, 7] 2 2 (by norm_num) XF.nan,
    rsi_at_eq [7, 7, 7] 2 2 (by norm_num) (by norm_num) 0 0 ?hg ?hl]
  · simp
  case hg =>
    norm_num [Finset.sum_Ico_eq_sum_range, Finset.sum_range_succ,
      gain_at, loss_at, delta_at]
  case hl =>
    norm_num [Finset.sum_Ico_eq_sum_range, Finset.sum_range_succ,
      gain_at, loss_at, delta_at]

/-- **C5** (amended): whenever the rolling average loss is exactly zero AND
the rolling average gain is positive, the RSI entry is the defined boundary
value `100` (not a fault); when the average gain is zero as well — as in a
constant price series — the entry is the `NaN` marker instead. -/
theorem rsi_avg_loss_zero_saturates (prices : List ℚ) (period i : Nat)
    (hi : i < prices.length) (g : ℚ)
    (hg : avgGain_at prices period i = some g) (hgpos : 0 < g)
    (hl : avgLoss_at prices period i = some 0) :
    (calculate_rsi_manual prices period).getD i XF.nan = XF.val 100 := by
  rw [calculate_rsi_manual_getD prices period i hi XF.nan]
  unfold rsi_at rs_at
  rw [hg, hl]
  simp [hgpos]

/-- **C5** (witness): at `prices = [1, 2, 2]`, `period = 2`, `i = 2` the
average gain is `1/2 > 0` and the average loss is `0`, and the RSI entry is
`100`. -/
theorem rsi_avg_loss_zero_saturates_witness :
    2 < ([1, 2, 2] : List ℚ).length ∧
    avgGain_at [1, 2, 2] 2 2 = some (1 / 2) ∧ (0 : ℚ) < 1 / 2 ∧
    avgLoss_at [1, 2, 2] 2 2 = some 0 ∧
    (calculate_rsi_manual [1, 2, 2] 2).getD 2 XF.nan = XF.val 100 := by
  have hg : avgGain_at [1, 2, 2] 2 2 = some (1 / 2) := by
    norm_num [avgGain_at, Finset.sum_Ico_eq_sum_range, Finset.sum_range_succ,
      gain_at, delta_at]
  have hl : avgLoss_at [1, 2, 2] 2 2 = some 0 := by
    norm_num [avgLoss_at, Finset.sum_Ico_eq_sum_range, Finset.sum_range_succ,
      loss_at, delta_at]
  exact ⟨by norm_num, hg, by norm_num, hl,
    rsi_avg_loss_zero_saturates [1, 2, 2] 2 2 (by norm_num) (1 / 2) hg
      (by norm_num) hl⟩

/-! ## Trend forecaster (src/main.py lines 38–45)

`predict_future_prices` fits `sklearn.linear_model.LinearRegression` on
`X = [[0], ..., [L-1]]`, `y = prices`, and evaluates the line at
`L, ..., L + days - 1`.  sklearn centers `X` and `y` and solves the centered
least-squares system by `scipy.linalg.lstsq` (SVD, minimum-norm solution):
for `L ≥ 2` this is the unique OLS slope; for a single sample the centered
system is all-zero and the minimum-norm solution is slope `0`, so the
prediction is the constant `y[0]`; fitting an empty sample raises
(`ValueError`). -/

/-- Sum of the regressor indices `0, ..., n-1`. -/
def Sx (n : Nat) : ℚ := ∑ i in Finset.range n, (i : ℚ)

/-- Sum of the squared regressor indices. -/
def Sxx (n : Nat) : ℚ := ∑ i in Finset.range n, (i : ℚ) ^ 2

/-- Sum of the observed prices. -/
def Sy (prices : List ℚ) : ℚ := ∑ i in Finset.range prices.length, prices.getD i 0

/-- Sum of index·price products. -/
def Sxy (prices : List ℚ) : ℚ :=
  ∑ i in Finset.range prices.length, (i : ℚ) * prices.getD i 0

/-- Sum of the squared prices. -/
def Syy (prices : List ℚ) : ℚ :=
  ∑ i in Finset.range prices.length, prices.getD i 0 ^ 2

/-- The OLS denominator `n·Σx² − (Σx)²`. -/
def olsDenom (n : Nat) : ℚ := (n : ℚ) * Sxx n - Sx n ^ 2

/-- Specification-side OLS closed form (spec §9: "slope/intercept from sums
of x, y, xy, x²"). -/
def ols_slope (prices : List ℚ) : ℚ :=
  ((prices.length : ℚ) * Sxy prices - Sx prices.length * Sy prices) /
    olsDenom prices.length

/-- Specification-side OLS intercept. -/
def ols_intercept (prices : List ℚ) : ℚ :=
  (Sy prices - ols_slope prices * Sx prices.length) / (prices.length : ℚ)

/-- Residual sum of squares of the line `x ↦ a·x + b` on the fit sample. -/
def rss (prices : List ℚ) (a b : ℚ) : ℚ :=
  ∑ i in Finset.range prices.length, (prices.getD i 0 - (a * i + b)) ^ 2

/-- The slope (`coef_`) computed by sklearn's `LinearRegression.fit`:
least squares on the centered data, minimum-norm (slope `0`) when the
centered regressor is identically zero. -/
def lr_coef (prices : List ℚ) : ℚ :=
  if (∑ i in Finset.range prices.length,
      ((i : ℚ) - Sx prices.length / prices.length) ^ 2) = 0 then 0
  else
    (∑ i in Finset.range prices.length,
        ((i : ℚ) - Sx prices.length / prices.length) *
          (prices.getD i 0 - Sy prices / prices.length)) /
      (∑ i in Finset.range prices.length,
        ((i : ℚ) - Sx prices.length / prices.length) ^ 2)

/-- The intercept computed by sklearn: `ȳ − coef·x̄`. -/
def lr_intercept (prices : List ℚ) : ℚ :=
  Sy prices / prices.length - lr_coef prices * (Sx prices.length / prices.length)

/-- `predict_future_prices` (src/main.py lines 38–45): raises on an empty
series (sklearn rejects zero samples), otherwise returns the fitted line
evaluated at indices `L, ..., L + days - 1`. -/
def predict_future_prices (prices : List ℚ) (days : Nat) : Except Unit (List ℚ) :=
  if prices.length = 0 then Except.error ()
  else Except.ok ((List.range days).map fun k : Nat =>
    lr_coef prices * ((prices.length : ℚ) + (k : ℚ)) + lr_intercept prices)

/-! ### Helper lemmas about the OLS fit -/

lemma Sx_closed (n : Nat) : Sx n = (n : ℚ) * ((n : ℚ) - 1) / 2 := by
  induction n with
  | zero => norm_num [Sx]
  | succ m ih =>
    have h : Sx (m + 1) = Sx m + m := by
      simp [Sx, Finset.sum_range_succ]
    rw [h, ih]
    push_cast
    ring

lemma Sxx_closed (n : Nat) :
    Sxx n = (n : ℚ) * ((n : ℚ) - 1) * (2 * (n : ℚ) - 1) / 6 := by
  induction n with
  | zero => norm_num [Sxx]
  | succ m ih =>
    have h : Sxx (m + 1) = Sxx m + (m : ℚ) ^ 2 := by
      simp [Sxx, Finset.sum_range_succ]
    rw [h, ih]
    push_cast
    ring

lemma olsDenom_eq (n : Nat) :
    olsDenom n = (n : ℚ) ^ 2 * ((n : ℚ) ^ 2 - 1) / 12 := by
  unfold olsDenom
  rw [Sx_closed, Sxx_closed]
  ring

/-- For at least two observations the regressor indices are not all equal, so
the OLS denominator is positive. -/
lemma olsDenom_pos (n : Nat) (hn : 2 ≤ n) : 0 < olsDenom n := by
  rw [olsDenom_eq]
  have hn' : (2 : ℚ) ≤ (n : ℚ) := by exact_mod_cast hn
  have h4 : (4 : ℚ) ≤ (n : ℚ) ^ 2 := by nlinarith
  have h1 : (0 : ℚ) < (n : ℚ) ^ 2 * ((n : ℚ) ^ 2 - 1) := by nlinarith
  exact div_pos h1 (by norm_num)

/-- Expansion of a centered square sum into the raw sums. -/
lemma sum_sub_sq (n : Nat) (c : ℚ) :
    ∑ i in Finset.range n, ((i : ℚ) - c) ^ 2 =
      Sxx n - 2 * c * Sx n + (n : ℚ) * c ^ 2 := by
  have h : ∀ i ∈ Finset.range n,
      ((i : ℚ) - c) ^ 2 = (i : ℚ) ^ 2 - 2 * c * (i : ℚ) + c ^ 2 :=
    fun i _ => by ring
  rw [Finset.sum_congr rfl h]
  simp only [Finset.sum_add_distrib, Finset.sum_sub_distrib, ← Finset.mul_sum,
    Finset.sum_const, Finset.card_range, nsmul_eq_mul]
  unfold Sxx Sx
  ring

/-- Expansion of a centered product sum into the raw sums. -/
lemma sum_sub_mul (prices : List ℚ) (c d : ℚ) :
    ∑ i in Finset.range prices.length,
        ((i : ℚ) - c) * (prices.getD i 0 - d) =
      Sxy prices - c * Sy prices - d * Sx prices.length +
        (prices.length : ℚ) * (c * d) := by
  have h : ∀ i ∈ Finset.range prices.length,
      ((i : ℚ) - c) * (prices.getD i 0 - d) =
        (i : ℚ) * prices.getD i 0 - c * prices.getD i 0 - d * (i : ℚ) + c * d :=
    fun i _ => by ring
  rw [Finset.sum_congr rfl h]
  simp only [Finset.sum_add_distrib, Finset.sum_sub_distrib, ← Finset.mul_sum,
    Finset.sum_const, Finset.card_range, nsmul_eq_mul]
  unfold Sxy Sy Sx
  ring

/-- Expansion of the residual sum of squares into the raw sums. -/
lemma rss_expand (prices : List ℚ) (a b : ℚ) :
    rss prices a b =
      Syy prices - 2 * a * Sxy prices - 2 * b * Sy prices +
        a ^ 2 * Sxx prices.length + 2 * a * b * Sx prices.length +
        (prices.length : ℚ) * b ^ 2 := by
  unfold rss
  have h : ∀ i ∈ Finset.range prices.length,
      (prices.getD i 0 - (a * i + b)) ^ 2 =
        prices.getD i 0 ^ 2 - 2 * a * ((i : ℚ) * prices.getD i 0) -
          2 * b * prices.getD i 0 + a ^ 2 * (i : ℚ) ^ 2 +
          2 * a * b * (i : ℚ) + b ^ 2 :=
    fun i _ => by ring
  rw [Finset.sum_congr rfl h]
  simp only [Finset.sum_add_distrib, Finset.sum_sub_distrib, ← Finset.mul_sum,
    Finset.sum_const, Finset.card_range, nsmul_eq_mul]
  unfold Syy Sxy Sy Sxx Sx
  ring

/-- For at least two observations the sklearn slope equals the closed-form
OLS slope. -/
lemma lr_coef_eq (prices : List ℚ) (h2 : 2 ≤ prices.length) :
    lr_coef prices = ols_slope prices := by
  have hn0 : ((prices.length : ℚ)) ≠ 0 := by
    have : 0 < prices.length := by omega
    exact_mod_cast Nat.pos_iff_ne_zero.mp this
  have hc : ∑ i in Finset.range prices.length,
      ((i : ℚ) - Sx prices.length / prices.length) ^ 2 =
      olsDenom prices.length / prices.length := by
    rw [sum_sub_sq]
    unfold olsDenom
    field_simp
    ring
  have hxy : ∑ i in Finset.range prices.length,
      ((i : ℚ) - Sx prices.length / prices.length) *
        (prices.getD i 0 - Sy prices / prices.length) =
      ((prices.length : ℚ) * Sxy prices - Sx prices.length * Sy prices) /
        prices.length := by
    rw [sum_sub_mul]
    field_simp
    ring
  have hcne : olsDenom prices.length / (prices.length : ℚ) ≠ 0 :=
    div_ne_zero (ne_of_gt (olsDenom_pos prices.length h2)) hn0
  unfold lr_coef
  rw [hc, hxy, if_neg hcne, div_div_div_cancel_right₀ hn0]
  rfl

/-- For at least two observations the sklearn intercept equals the
closed-form OLS intercept. -/
lemma lr_intercept_eq (prices : List ℚ) (h2 : 2 ≤ prices.length) :
    lr_intercept prices = ols_intercept prices := by
  unfold lr_intercept ols_intercept
  rw [lr_coef_eq prices h2, sub_div, mul_div_assoc]

/-- For an empty price series the fit raises (sklearn rejects zero samples). -/
lemma predict_future_prices_empty (days : Nat) :
    predict_future_prices [] days = Except.error () := by
  simp [predict_future_prices]

/-- For a single observation `p` the centered regressor is identically zero,
the minimum-norm slope is `0`, and the forecaster silently returns the
constant series `p, ..., p` — no failure is signalled. -/
lemma predict_future_prices_single (p : ℚ) (days : Nat) :
    predict_future_prices [p] days = Except.ok (List.replicate days p) := by
  have hc : lr_coef [p] = 0 := by
    have hz : (∑ i in Finset.range ([p] : List ℚ).length,
        ((i : ℚ) - Sx ([p] : List ℚ).length / ([p] : List ℚ).length) ^ 2) = 0 := by
      norm_num [Sx, Finset.sum_range_succ]
    unfold lr_coef
    rw [if_pos hz]
  have hi : lr_intercept [p] = p := by
    unfold lr_intercept
    rw [hc]
    norm_num [Sy, Finset.sum_range_succ]
  unfold predict_future_prices
  rw [if_neg (by norm_num)]
  simp only [hc, hi, zero_mul, zero_add]
  rw [List.map_const', List.length_range]

/-! ## Claims C6 and C7 about `predict_future_prices` -/

/-- **C6** (confirmed): for every price series of length `L ≥ 2` and positive
horizon `days`, `predict_future_prices` returns exactly the
ordinary-least-squares line fitted to `(i, price[i])`, evaluated at indices
`L, ..., L + days - 1` (a sequence of length `days`); the returned slope and
intercept are the unique minimizers of the residual sum of squares. -/
theorem predict_future_prices_ols (prices : List ℚ) (days : Nat)
    (h2 : 2 ≤ prices.length) (_hd : 1 ≤ days) :
    predict_future_prices prices days =
      Except.ok ((List.range days).map fun k : Nat =>
        ols_slope prices * ((prices.length : ℚ) + (k : ℚ)) + ols_intercept prices) ∧
    ∀ a b : ℚ,
      rss prices (ols_slope prices) (ols_intercept prices) ≤ rss prices a b := by
  have hnpos : (0 : ℚ) < (prices.length : ℚ) := by
    have : 0 < prices.length := by omega
    exact_mod_cast this
  have hn0 : ((prices.length : ℚ)) ≠ 0 := ne_of_gt hnpos
  have hD := olsDenom_pos prices.length h2
  have hDne : olsDenom prices.length ≠ 0 := ne_of_gt hD
  constructor
  · unfold predict_future_prices
    rw [if_neg (by omega : ¬ prices.length = 0)]
    simp only [lr_coef_eq prices h2, lr_intercept_eq prices h2]
  · intro a b
    have hident : rss prices a b -
        rss prices (ols_slope prices) (ols_intercept prices) =
        (olsDenom prices.length / prices.length) * (a - ols_slope prices) ^ 2 +
          (prices.length : ℚ) *
            ((Sy prices - a * Sx prices.length) / prices.length - b) ^ 2 := by
      rw [rss_expand, rss_expand]
      unfold ols_intercept ols_slope olsDenom
      unfold olsDenom at hDne
      field_simp
      ring
    have hterm1 : 0 ≤
        (olsDenom prices.length / prices.length) * (a - ols_slope prices) ^ 2 :=
      mul_nonneg (div_nonneg hD.le hnpos.le) (sq_nonneg _)
    have hterm2 : 0 ≤ (prices.length : ℚ) *
        ((Sy prices - a * Sx prices.length) / prices.length - b) ^ 2 :=
      mul_nonneg hnpos.le (sq_nonneg _)
    linarith

/-- **C6** (witness): for `prices = [1, 2, 3, 4, 5]` and `days = 2` the OLS
fit has slope `1` and intercept `1` and the forecast is `[6, 7]`. -/
theorem predict_future_prices_ols_witness :
    predict_future_prices [1, 2, 3, 4, 5] 2 = Except.ok [6, 7] := by
  have hs : ols_slope [1, 2, 3, 4, 5] = 1 := by
    norm_num [ols_slope, olsDenom, Sxy, Sy, Sx, Sxx, Finset.sum_range_succ]
  have hi : ols_intercept [1, 2, 3, 4, 5] = 1 := by
    norm_num [ols_intercept, hs, Sy, Sx, Finset.sum_range_succ]
  rw [(predict_future_prices_ols [1, 2, 3, 4, 5] 2 (by norm_num) (by norm_num)).1]
  norm_num [hs, hi, List.range_succ]

/-- **C7** (counterexample): a single observation is "fewer than 2
observations", yet the forecaster does not fail — it silently returns the
fabricated constant series `[5, 5]`. -/
theorem predict_future_prices_degenerate_counterexample :
    predict_future_prices [5] 2 = Except.ok [5, 5] := by
  rw [predict_future_prices_single 5 2]
  rfl

/-- **C7** (amended): an empty price series is a failure (sklearn raises on
zero samples), but a single observation is not: the forecaster silently
returns the constant series repeating that observation, with slope `0`. -/
theorem predict_future_prices_degenerate (p : ℚ) (days : Nat) :
    predict_future_prices [] days = Except.error () ∧
    predict_future_prices [p] days = Except.ok (List.replicate days p) :=
  ⟨predict_future_prices_empty days, predict_future_prices_single p days⟩

/-! ## Recommendation engine (src/main.py lines 118–138)

`generate_recommendation(fair_price, current_price, future_prices)` returns
the fixed "insufficient data" pair when any input is `None`; otherwise it
computes `margin = fair_price - current_price` and
`future_growth = (future_prices[-1] - current_price) / current_price * 100`
and selects one of four fixed string pairs.  Indexing `future_prices[-1]` on
an empty sequence raises `IndexError`, and dividing by a zero
`current_price` raises `ZeroDivisionError`. -/

/-- The (strength, recommendation) pair of src/main.py lines 126–127. -/
def strongPair : String × String :=
  ("Forte Oportunidade",
   "Considerar investimento. O ativo está subvalorizado e tem potencial de crescimento.")

/-- The (strength, recommendation) pair of src/main.py lines 129–130. -/
def moderateUnderPair : String × String :=
  ("Oportunidade Moderada",
   "Considerar investimento. O ativo está subvalorizado, mas o crescimento futuro é incerto.")

/-- The (strength, recommendation) pair of src/main.py lines 132–133. -/
def moderateOverPair : String × String :=
  ("Oportunidade Moderada",
   "Cautela. O ativo pode estar sobrevalorizado, mas há potencial de crescimento.")

/-- The (strength, recommendation) pair of src/main.py lines 135–136. -/
def weakPair : String × String :=
  ("Fraca Oportunidade",
   "Evitar investimento. O ativo está sobrevalorizado e com baixo potencial de crescimento.")

/-- The fixed "insufficient data" pair of src/main.py line 120. -/
def insufficientPair : String × String :=
  ("Dados insuficientes", "Não é possível gerar uma recomendação.")

/-- `generate_recommendation` (src/main.py lines 118–138). -/
def generate_recommendation (fair_price current_price : Option ℚ)
    (future_prices : Option (List ℚ)) : Except Unit (String × String) :=
  match fair_price, current_price, future_prices with
  | some fp, some cp, some fut =>
    if fut = [] then Except.error ()
    else if cp = 0 then Except.error ()
    else
      let margin := fp - cp
      let future_growth := (fut.getLastD 0 - cp) / cp * 100
      if 0 < margin ∧ 0 < future_growth then Except.ok strongPair
      else if 0 < margin ∧ future_growth ≤ 0 then Except.ok moderateUnderPair
      else if margin ≤ 0 ∧ 0 < future_growth then Except.ok moderateOverPair
      else Except.ok weakPair
  | _, _, _ => Except.ok insufficientPair

/-! ## Claims C8, C9 and C10 about `generate_recommendation` -/

/-- **C8** (counterexample): with all three inputs present, a non-empty
forecast and `current_price = 0`, the growth division raises
`ZeroDivisionError` — the function does not return a pair from the decision
table, so it is not total over the claimed domain. -/
theorem generate_recommendation_table_counterexample :
    generate_recommendation (some 5) (some 0) (some [10]) = Except.error () := by
  simp [generate_recommendation]

/-- **C8** (amended): for every present fair price, present nonzero current
price and non-empty forecast, `generate_recommendation` computes
`margin = fair_price - current_price` and
`future_growth = (forecast[last] - current_price)/current_price·100` and
returns exactly the pair of the four-row decision table (first match wins);
at `current_price = 0` the computation raises instead. -/
theorem generate_recommendation_table (fp cp : ℚ) (fut : List ℚ)
    (hne : fut ≠ []) (hcp : cp ≠ 0) :
    (0 < fp - cp → 0 < (fut.getLastD 0 - cp) / cp * 100 →
      generate_recommendation (some fp) (some cp) (some fut) =
        Except.ok strongPair) ∧
    (0 < fp - cp → (fut.getLastD 0 - cp) / cp * 100 ≤ 0 →
      generate_recommendation (some fp) (some cp) (some fut) =
        Except.ok moderateUnderPair) ∧
    (fp - cp ≤ 0 → 0 < (fut.getLastD 0 - cp) / cp * 100 →
      generate_recommendation (some fp) (some cp) (some fut) =
        Except.ok moderateOverPair) ∧
    (fp - cp ≤ 0 → (fut.getLastD 0 - cp) / cp * 100 ≤ 0 →
      generate_recommendation (some fp) (some cp) (some fut) =
        Except.ok weakPair) := by
  refine ⟨?_, ?_, ?_, ?_⟩
  · intro h1 h2
    simp only [generate_recommendation]
    rw [if_neg hne, if_neg hcp, if_pos ⟨h1, h2⟩]
  · intro h1 h2
    simp only [generate_recommendation]
    rw [if_neg hne, if_neg hcp,
      if_neg (fun hc => (not_lt.mpr h2) hc.2), if_pos ⟨h1, h2⟩]
  · intro h1 h2
    simp only [generate_recommendation]
    rw [if_neg hne, if_neg hcp,
      if_neg (fun hc => (not_lt.mpr h1) hc.1),
      if_neg (fun hc => (not_lt.mpr h1) hc.1), if_pos ⟨h1, h2⟩]
  · intro h1 h2
    simp only [generate_recommendation]
    rw [if_neg hne, if_neg hcp,
      if_neg (fun hc => (not_lt.mpr h1) hc.1),
      if_neg (fun hc => (not_lt.mpr h1) hc.1),
      if_neg (fun hc => (not_lt.mpr h2) hc.2)]

/-- **C8** (witness): `fair_price = 10`, `current_price = 5`,
`forecast = [6]` gives `margin = 5 > 0` and `future_growth = 20 > 0`, hence
the "strong opportunity" pair. -/
theorem generate_recommendation_table_witness :
    ([6] : List ℚ) ≠ [] ∧ (5 : ℚ) ≠ 0 ∧
    generate_recommendation (some 10) (some 5) (some [6]) =
      Except.ok strongPair := by
  refine ⟨by simp, by norm_num, ?_⟩
  exact (generate_recommendation_table 10 5 [6] (by simp) (by norm_num)).1
    (by norm_num) (by norm_num [List.getLastD_eq_getLast?])

/-- **C9** (confirmed): whenever the fair price, the current price or the
forecast is absent, `generate_recommendation` returns the fixed literal
"insufficient data" pair regardless of the other inputs, with no numeric
computation (and hence no fault) on the absent values. -/
theorem generate_recommendation_insufficient (fp cp : Option ℚ)
    (fut : Option (List ℚ)) (h : fp = none ∨ cp = none ∨ fut = none) :
    generate_recommendation fp cp fut = Except.ok insufficientPair := by
  rcases h with h | h | h
  · subst h; cases cp <;> cases fut <;> rfl
  · subst h; cases fp <;> cases fut <;> rfl
  · subst h; cases fp <;> cases cp <;> rfl

/-- **C9** (witness): absent fair price, the other inputs present. -/
theorem generate_recommendation_insufficient_witness :
    ((none : Option ℚ) = none ∨ (some (3 : ℚ)) = none ∨
      (some ([1] : List ℚ)) = none) ∧
    generate_recommendation none (some 3) (some [1]) =
      Except.ok insufficientPair :=
  ⟨Or.inl rfl,
   generate_recommendation_insufficient none (some 3) (some [1]) (Or.inl rfl)⟩

/-- **C10** (confirmed): `generate_recommendation` depends on the forecast
only through its last element — two non-empty forecasts with equal last
elements give identical results, for every fair price and current price. -/
theorem generate_recommendation_last_only (fp cp : Option ℚ) (f1 f2 : List ℚ)
    (h1 : f1 ≠ []) (h2 : f2 ≠ []) (hlast : f1.getLastD 0 = f2.getLastD 0) :
    generate_recommendation fp cp (some f1) =
      generate_recommendation fp cp (some f2) := by
  cases fp with
  | none => cases cp <;> rfl
  | some fpv =>
    cases cp with
    | none => rfl
    | some cpv =>
      simp only [generate_recommendation]
      rw [if_neg h1, if_neg h2, hlast]

/-- **C10** (witness): forecasts `[9, 5]` and `[5]` share the last element
`5` and give the same recommendation. -/
theorem generate_recommendation_last_only_witness :
    ([9, 5] : List ℚ) ≠ [] ∧ ([5] : List ℚ) ≠ [] ∧
    ([9, 5] : List ℚ).getLastD 0 = ([5] : List ℚ).getLastD 0 ∧
    generate_recommendation (some 1) (some 2) (some [9, 5]) =
      generate_recommendation (some 1) (some 2) (some [5]) := by
  refine ⟨by simp, by simp, by simp, ?_⟩
  exact generate_recommendation_last_only (some 1) (some 2) [9, 5] [5]
    (by simp) (by simp) (by simp)
